import Mathlib

/-!
Shallow embedding of the reconciliation core of `src/print-progress.js`
(OBS Print Progress overlay for Klipper/Moonraker).

JavaScript numbers reaching the reconciliation logic are modelled as `ℚ`;
a field that is absent, `null`, or non-numeric (so that `asNumber` yields
`null`) is modelled as `none : Option ℚ`.  JavaScript truthiness on a
number-or-null value is `false` exactly on `null`/`undefined` and `0`.
-/

namespace PrintProgress

/-- JS truthiness of a number-or-null value: `null`, `undefined` and `0` are falsy. -/
def truthyQ (v : Option ℚ) : Bool :=
  match v with
  | none => false
  | some q => q != 0

/-- JS `a ?? b` (nullish coalescing) on number-or-null values. -/
def jsCoalesce (a b : Option ℚ) : Option ℚ :=
  match a with
  | none => b
  | some q => some q

/-- JS `a || b` (truthiness-based or) on number-or-null values. -/
def jsOr (a b : Option ℚ) : Option ℚ :=
  if truthyQ a then a else b

/-- JS `Math.floor` on a finite number (`Rat.floor` is kernel-computable and
equals `⌊q⌋` by `Rat.floor_def'`). -/
def jfloor (q : ℚ) : ℚ := (Rat.floor q : ℚ)

/-- JS `Math.round` (half-up, i.e. `⌊x + 1/2⌋`) on a finite number. -/
def jround (q : ℚ) : ℚ := jfloor (q + 1/2)

theorem jfloor_eq_floor (q : ℚ) : jfloor q = (⌊q⌋ : ℚ) := by
  unfold jfloor
  rw [(Rat.floor_def' q).trans Rat.floor_def.symm]

/-- `asNumber` from the source: `Number(value)` filtered by `Number.isFinite`.
On an absent/null value it yields `null`; a finite number passes through. -/
def asNumber (v : Option ℚ) : Option ℚ := v

/-- `firstNonNull(...values)` from the source: first value that is neither
`null` nor `undefined` (a `0` is returned as-is). -/
def firstNonNull (values : List (Option ℚ)) : Option ℚ :=
  values.findSome? id

/-- The slicer "info" sub-object of `print_stats` with all layer/time alias
fields used by the source. -/
structure SlicerInfo where
  current_layer : Option ℚ := none
  currentLayer : Option ℚ := none
  layer_current : Option ℚ := none
  layer : Option ℚ := none
  total_layer : Option ℚ := none
  totalLayer : Option ℚ := none
  layer_count : Option ℚ := none
  layerTotal : Option ℚ := none
  totalLayers : Option ℚ := none
  estimated_time : Option ℚ := none
  slicer_time : Option ℚ := none
  slicer_estimated_time : Option ℚ := none
  estimated_print_time : Option ℚ := none
  slicer_estimated_duration : Option ℚ := none
  deriving DecidableEq, Repr

/-- `SliceMetadata`: metadata record for the active file, with every alias
field the source reads. -/
structure Meta where
  layer_height : Option ℚ := none
  first_layer_height : Option ℚ := none
  object_height : Option ℚ := none
  layer_count : Option ℚ := none
  total_layer : Option ℚ := none
  total_layers : Option ℚ := none
  estimated_time : Option ℚ := none
  slicer_estimated_time : Option ℚ := none
  slicer_time : Option ℚ := none
  estimated_print_time : Option ℚ := none
  slicer_estimated_duration : Option ℚ := none
  print_time : Option ℚ := none
  deriving DecidableEq, Repr

/-- `print_stats` fields consumed by the reconciliation logic. -/
structure PrintStats where
  state : String := ""
  filename : Option String := none
  print_duration : Option ℚ := none
  total_duration : Option ℚ := none
  info : Option SlicerInfo := none
  deriving DecidableEq, Repr

/-- `display_status` object (only `progress` is read). -/
structure DisplayStatus where
  progress : Option ℚ := none
  deriving DecidableEq, Repr

/-- `toolhead` object: `position` is read at index 2 (the Z coordinate). -/
structure Toolhead where
  position : List ℚ := []
  deriving DecidableEq, Repr

/-- `toolhead?.position?.[2]` -/
def toolheadZ (toolhead : Option Toolhead) : Option ℚ :=
  toolhead.bind (fun t => t.position.get? 2)

/-- A `{ current, total }` layer pair as returned by the two compute helpers. -/
structure LayerPair where
  current : Option ℚ := none
  total : Option ℚ := none
  deriving DecidableEq, Repr

/-- `computeLayerFromMetadata(toolhead, metadata)` from the source. -/
def computeLayerFromMetadata (toolhead : Option Toolhead) (metadata : Option Meta) :
    LayerPair :=
  match metadata with
  | none => ⟨none, none⟩
  | some m =>
    let layerHeight := m.layer_height
    let firstLayerHeight := jsOr m.first_layer_height layerHeight
    let objectHeight := m.object_height
    let layerCount := asNumber (jsCoalesce m.layer_count
      (jsCoalesce m.total_layer m.total_layers))
    let currentZ := toolheadZ toolhead
    let total0 : Option ℚ := jsOr layerCount none
    let total : Option ℚ :=
      if ¬ truthyQ total0 ∧ truthyQ layerHeight ∧ truthyQ objectHeight then
        some (max 1 (jround ((objectHeight.getD 0 - firstLayerHeight.getD 0) /
          layerHeight.getD 0 + 1)))
      else total0
    let current : Option ℚ :=
      if truthyQ layerHeight ∧ currentZ.isSome then
        let calcLayer := jfloor ((currentZ.getD 0 - firstLayerHeight.getD 0) /
          layerHeight.getD 0 + 1)
        let c := max 1 calcLayer
        if truthyQ total then some (min (total.getD 0) c) else some c
      else none
    ⟨current, total⟩

/-- `computeLayerFromProgress(displayStatus, metadata)` from the source. -/
def computeLayerFromProgress (displayStatus : Option DisplayStatus)
    (metadata : Option Meta) : LayerPair :=
  match metadata with
  | none => ⟨none, none⟩
  | some m =>
    let total := asNumber (jsCoalesce m.layer_count
      (jsCoalesce m.total_layer m.total_layers))
    let progress := displayStatus.bind DisplayStatus.progress
    if ¬ truthyQ total ∨ progress = none ∨ progress.getD 0 ≤ 0 then
      ⟨none, jsOr total none⟩
    else
      ⟨some (max 1 (min (total.getD 0) (jround (progress.getD 0 * total.getD 0)))),
        total⟩

/-- The empty slicer-info object (`printStats.info || {}`). -/
def emptySlicerInfo : SlicerInfo := {}

/-- The slicer-reported current-layer candidate of `getLayerInfo`. -/
def slicerCurrentOf (printStats : PrintStats) : Option ℚ :=
  let slicerInfo := printStats.info.getD emptySlicerInfo
  asNumber (jsCoalesce slicerInfo.current_layer
    (jsCoalesce slicerInfo.currentLayer
      (jsCoalesce slicerInfo.layer_current slicerInfo.layer)))

/-- The slicer-reported total-layer candidate of `getLayerInfo`. -/
def slicerTotalOf (printStats : PrintStats) : Option ℚ :=
  let slicerInfo := printStats.info.getD emptySlicerInfo
  asNumber (jsCoalesce slicerInfo.total_layer
    (jsCoalesce slicerInfo.totalLayer
      (jsCoalesce slicerInfo.layer_count
        (jsCoalesce slicerInfo.layerTotal slicerInfo.totalLayers))))

/-- The naive Z/0.2mm fallback current-layer candidate of `getLayerInfo`. -/
def fallbackCurrentOf (toolhead : Option Toolhead) (metadata : Option Meta) :
    Option ℚ :=
  match toolheadZ toolhead with
  | none => none
  | some z =>
    if z > 0 ∧ ¬ truthyQ (computeLayerFromMetadata toolhead metadata).current then
      some (max 1 (jfloor (z / (2/10))))
    else none

/-- The `{ currentLayer, totalLayer }` result of `getLayerInfo`. -/
structure LayerInfo where
  currentLayer : Option ℚ := none
  totalLayer : Option ℚ := none
  deriving DecidableEq, Repr

/-- `getLayerInfo(printStats, displayStatus, toolhead)` from the source; the
metadata argument stands for the module-level `metadataCache.data`. -/
def getLayerInfo (printStats : PrintStats) (displayStatus : Option DisplayStatus)
    (toolhead : Option Toolhead) (metadata : Option Meta) : LayerInfo :=
  let slicerCurrent := slicerCurrentOf printStats
  let slicerTotal := slicerTotalOf printStats
  let metadataLayer := computeLayerFromMetadata toolhead metadata
  let progressLayer := computeLayerFromProgress displayStatus metadata
  let fallbackCurrent := fallbackCurrentOf toolhead metadata
  ⟨firstNonNull [slicerCurrent, metadataLayer.current, progressLayer.current,
      fallbackCurrent],
    firstNonNull [slicerTotal, metadataLayer.total, progressLayer.total]⟩

/-- `computeRemainingFromProgress(progress, printDuration)` from the source. -/
def computeRemainingFromProgress (progress printDuration : ℚ) : Option ℚ :=
  if progress > 0 ∧ progress < 1 then
    some (printDuration / progress - printDuration)
  else none

/-- `getSlicerTotalSeconds(metadata, slicerInfo)` from the source: first
candidate among the metadata/slicer-info time aliases that is a positive
number. -/
def getSlicerTotalSeconds (metadata : Option Meta) (slicerInfo : Option SlicerInfo) :
    Option ℚ :=
  let candidates : List (Option ℚ) := [
    metadata.bind Meta.estimated_time,
    metadata.bind Meta.slicer_estimated_time,
    metadata.bind Meta.slicer_time,
    metadata.bind Meta.estimated_print_time,
    metadata.bind Meta.slicer_estimated_duration,
    metadata.bind Meta.print_time,
    slicerInfo.bind SlicerInfo.estimated_time,
    slicerInfo.bind SlicerInfo.slicer_time,
    slicerInfo.bind SlicerInfo.slicer_estimated_time,
    slicerInfo.bind SlicerInfo.estimated_print_time,
    slicerInfo.bind SlicerInfo.slicer_estimated_duration]
  candidates.findSome? (fun value =>
    match asNumber value with
    | none => none
    | some num => if truthyQ (some num) ∧ num > 0 then some num else none)

/-- `getElapsedTime(printStats)` from the source. -/
def getElapsedTime (printStats : PrintStats) : Option ℚ :=
  jsCoalesce (asNumber printStats.total_duration)
    (jsCoalesce (asNumber printStats.print_duration) none)

/-- A chamber temperature entry as returned by a single-object query, with
every alias field `parseTempEntry` reads. -/
structure TempEntry where
  temperature : Option ℚ := none
  temp : Option ℚ := none
  current : Option ℚ := none
  temper : Option ℚ := none
  target : Option ℚ := none
  target_temp : Option ℚ := none
  target_temperature : Option ℚ := none
  deriving DecidableEq, Repr

/-- `parseTempEntry(entry)` from the source.  `Math.round` of an absent chain
is `NaN`, which fails the `Number.isFinite` check, so the reading is `null`
exactly when no temperature-like alias is present. -/
def parseTempEntry (entry : Option TempEntry) : Option (ℚ × ℚ) :=
  match entry with
  | none => none
  | some e =>
    let currentRaw := jsCoalesce e.temperature
      (jsCoalesce e.temp (jsCoalesce e.current e.temper))
    match currentRaw with
    | none => none
    | some c =>
      let current := jround c
      let targetRaw := jsCoalesce e.target
        (jsCoalesce e.target_temp e.target_temperature)
      let target :=
        match targetRaw with
        | some t => jround t
        | none => jround ((jsCoalesce e.temperature e.temp).getD 0)
      some (current, target)

/-- Substring containment on character lists (JS `String.prototype.includes`). -/
def containsSub (needle : List Char) : List Char → Bool
  | [] => decide (needle = [])
  | c :: rest => needle.isPrefixOf (c :: rest) || containsSub needle rest

/-- JS `message.includes(pattern)` on strings. -/
def strIncludes (msg pat : String) : Bool :=
  containsSub pat.toList msg.toList

/-- The network-error classification of the `fetchPrintStatus` catch handler. -/
def isNetworkErrorMsg (msg : String) : Bool :=
  strIncludes msg "Failed to fetch" ||
  strIncludes msg "NetworkError" ||
  strIncludes msg "TypeError"

/-- `maxApiRetries` from the source. -/
def maxApiRetries : ℕ := 5

/-- Outcome of one execution of the `fetchPrintStatus` catch handler: either a
retry is scheduled (with the new `apiRetryCount` and the delay in ms), or a
terminal status text is shown for this cycle. -/
inductive ErrorAction where
  | retry (newCount delayMs : ℕ)
  | terminal (statusText : String)
  deriving DecidableEq, Repr

/-- The `fetchPrintStatus` catch handler, modelled as a function of the current
`apiRetryCount` and the error message: on a network error with retries left it
increments the counter and schedules a retry after
`min(2000 * 2^(count-1), 30000)` ms; otherwise it shows a terminal status. -/
def fetchErrorAction (apiRetryCount : ℕ) (msg ip : String) : ErrorAction :=
  if isNetworkErrorMsg msg ∧ apiRetryCount < maxApiRetries then
    .retry (apiRetryCount + 1) (min (2000 * 2 ^ (apiRetryCount + 1 - 1)) 30000)
  else
    .terminal
      (if strIncludes msg "HTTP 401" || strIncludes msg "HTTP 403" then
        "Authentication Error"
      else if strIncludes msg "HTTP 404" then "API Not Found"
      else "Unreachable: " ++ ip)

/-- Successive catch-handler outcomes for `n` consecutive failures with the
given message, starting from `apiRetryCount = count`. -/
def fetchErrorTrace (count : ℕ) (msg ip : String) : ℕ → List ErrorAction
  | 0 => []
  | n + 1 =>
    let action := fetchErrorAction count msg ip
    let nextCount := match action with
      | .retry newCount _ => newCount
      | .terminal _ => count
    action :: fetchErrorTrace nextCount msg ip n

/-- The three time slots written by `fetchPrintStatus` per poll
(`timeEstimate`, `timeSlicer`, `timeTotal`). -/
structure TimeValues where
  timeEstimate : Option ℚ := none
  timeSlicer : Option ℚ := none
  timeTotal : Option ℚ := none
  deriving DecidableEq, Repr

/-- The time outputs of one poll of `fetchPrintStatus`, by print state:
the `printing` branch computes all three, the `paused` branch suppresses the
progress estimate, and the idle branch nulls the estimate and elapsed slots
while still passing `getSlicerTotalSeconds` to the slicer slot.
`virtualSdcardProgress` stands for `virtual_sdcard?.progress`. -/
def statusTimeValues (printStats : PrintStats) (displayStatus : Option DisplayStatus)
    (virtualSdcardProgress : Option ℚ) (metadata : Option Meta) : TimeValues :=
  if printStats.state = "printing" then
    let rawProgress := (jsCoalesce virtualSdcardProgress
      (jsCoalesce (displayStatus.bind DisplayStatus.progress) (some 0))).getD 0
    let progress := max 0 (min 1 (jsOr (some rawProgress) (some 0)).getD 0)
    let printDuration := (jsOr printStats.print_duration (some 0)).getD 0
    let estimateRemaining := computeRemainingFromProgress progress printDuration
    let slicerTotal := getSlicerTotalSeconds metadata printStats.info
    let slicerRemaining := slicerTotal.map (fun t => max 0 (t - printDuration))
    ⟨estimateRemaining, slicerRemaining, getElapsedTime printStats⟩
  else if printStats.state = "paused" then
    ⟨none, getSlicerTotalSeconds metadata printStats.info, getElapsedTime printStats⟩
  else
    ⟨none, getSlicerTotalSeconds metadata printStats.info, none⟩

/-! ### A small backtracking matcher for the source's line regexes

Each regex in `parseGcodeHeader` is a sequence of literals, single-char
classes, optional pieces and alternations followed by one greedy terminal
capture group (`([\d.]+)` or `([\d]+)`).  A pattern is modelled as a function
returning, in JS preference order, every suffix at which the pattern can stop
matching; the capture is the first nonempty class run among those, scanning
start positions left to right (leftmost-match-wins). -/

/-- A pattern matcher: all suffixes after a match at the given position, in
JS backtracking preference order. -/
abbrev PatM := List Char → List (List Char)

/-- Literal string. -/
def pLit (w : String) : PatM := fun s =>
  if w.toList.isPrefixOf s then [s.drop w.length] else []

/-- Single character from a class. -/
def pCls (p : Char → Bool) : PatM := fun s =>
  match s with
  | [] => []
  | c :: rest => if p c then [rest] else []

/-- `X?`: try with the piece first, then without. -/
def pOpt (m : PatM) : PatM := fun s => m s ++ [s]

/-- `[c]*` on a character class, greedy: longest suffix first. -/
def pStar (p : Char → Bool) : PatM := fun s =>
  let k := (s.takeWhile p).length
  (List.range (k + 1)).map (fun i => s.drop (k - i))

/-- Sequencing of pattern pieces. -/
def pSeq (ms : List PatM) : PatM := fun s =>
  ms.foldl (fun acc m => acc.flatMap m) [s]

/-- Ordered alternation. -/
def pAlt (ms : List PatM) : PatM := fun s => ms.flatMap (· s)

/-- Capture at one position: first suffix (in preference order) that starts a
nonempty run of the capture class; the capture is that greedy run. -/
def capAt (m : PatM) (capCls : Char → Bool) (s : List Char) : Option (List Char) :=
  (m s).findSome? (fun t =>
    let run := t.takeWhile capCls
    if run.isEmpty then none else some run)

/-- Leftmost search over start positions, returning the capture group. -/
def searchCap (m : PatM) (capCls : Char → Bool) : List Char → Option (List Char)
  | [] => capAt m capCls []
  | c :: rest => (capAt m capCls (c :: rest)).orElse (fun _ => searchCap m capCls rest)

/-- JS whitespace (`\s`), restricted to its ASCII members. -/
def isJsWS (c : Char) : Bool :=
  c == ' ' || c == '\t' || c == '\n' || c == '\r' || c == '\x0B' || c == '\x0C'

/-- The `[:=\s]` separator class. -/
def isSep (c : Char) : Bool := c == ':' || c == '=' || isJsWS c

/-- The `[_ ]` class. -/
def isUS (c : Char) : Bool := c == '_' || c == ' '

/-- Decimal digit. -/
def isDig (c : Char) : Bool := c.isDigit

/-- The `[\d.]` capture class. -/
def isDigDot (c : Char) : Bool := c.isDigit || c == '.'

/-- Numeric value of a digit run. -/
def digitsVal (cs : List Char) : ℕ :=
  cs.foldl (fun acc c => 10 * acc + (c.toNat - '0'.toNat)) 0

/-- JS `Number` on a nonempty string of digits and dots (`NaN` becomes
`none`): at most one dot, and at least one digit somewhere. -/
def numValue (cs : List Char) : Option ℚ :=
  let intPart := cs.takeWhile isDig
  let rest := cs.drop intPart.length
  match rest with
  | [] => if intPart.isEmpty then none else some (digitsVal intPart : ℚ)
  | '.' :: frac =>
    if frac.all isDig ∧ ¬ (intPart.isEmpty ∧ frac.isEmpty) then
      some ((digitsVal intPart : ℚ) + (digitsVal frac : ℚ) / 10 ^ frac.length)
    else none
  | _ => none

/-- `numberFromLine(line, regex)` from the source: search the line for the
pattern, take the capture, convert with `Number`, keep finite values. -/
def numberFromLine (line : List Char) (pat : PatM) (capCls : Char → Bool) :
    Option ℚ :=
  (searchCap pat capCls line).bind numValue

/-- JS `String.prototype.trim`. -/
def jsTrim (s : List Char) : List Char :=
  ((s.dropWhile isJsWS).reverse.dropWhile isJsWS).reverse

/-- Regex `layer[_ ]?height[:=\s]\s*` (before the `([\d.]+)` capture). -/
def patLayerHeightA : PatM :=
  pSeq [pLit "layer", pOpt (pCls isUS), pLit "height", pCls isSep, pStar isJsWS]

/-- Regex `;\s*layer_height\s*=\s*`. -/
def patLayerHeightB : PatM :=
  pSeq [pLit ";", pStar isJsWS, pLit "layer_height", pStar isJsWS, pLit "=",
    pStar isJsWS]

/-- Regex `first[_ ]?layer[_ ]?height[:=\s]\s*`. -/
def patFirstLayerHeightA : PatM :=
  pSeq [pLit "first", pOpt (pCls isUS), pLit "layer", pOpt (pCls isUS),
    pLit "height", pCls isSep, pStar isJsWS]

/-- Regex `initial[_ ]?layer[_ ]?height[:=\s]\s*`. -/
def patFirstLayerHeightB : PatM :=
  pSeq [pLit "initial", pOpt (pCls isUS), pLit "layer", pOpt (pCls isUS),
    pLit "height", pCls isSep, pStar isJsWS]

/-- Regex `layer[_ ]?(?:count|total|totals?)[:=\s]\s*`. -/
def patLayerCountA : PatM :=
  pSeq [pLit "layer", pOpt (pCls isUS),
    pAlt [pLit "count", pLit "total", pSeq [pLit "total", pOpt (pLit "s")]],
    pCls isSep, pStar isJsWS]

/-- Regex `total[_ ]?layers?[:=\s]\s*`. -/
def patLayerCountB : PatM :=
  pSeq [pLit "total", pOpt (pCls isUS), pLit "layer", pOpt (pLit "s"),
    pCls isSep, pStar isJsWS]

/-- Regex `;\s*total_layer_count\s*=\s*`. -/
def patLayerCountC : PatM :=
  pSeq [pLit ";", pStar isJsWS, pLit "total_layer_count", pStar isJsWS,
    pLit "=", pStar isJsWS]

/-- Regex `(?:estimated[_ ]?time|estimated[_ ]?print[_ ]?time|print[_ ]?time)[:=\s]\s*`. -/
def patEstimatedTimeA : PatM :=
  pSeq [pAlt [
      pSeq [pLit "estimated", pOpt (pCls isUS), pLit "time"],
      pSeq [pLit "estimated", pOpt (pCls isUS), pLit "print", pOpt (pCls isUS),
        pLit "time"],
      pSeq [pLit "print", pOpt (pCls isUS), pLit "time"]],
    pCls isSep, pStar isJsWS]

/-- Regex `;time[:=\s]\s*`. -/
def patEstimatedTimeB : PatM :=
  pSeq [pLit ";time", pCls isSep, pStar isJsWS]

/-- Regex `;\s*estimated_printing_time\(normal\)\s*=\s*`. -/
def patEstimatedTimeC : PatM :=
  pSeq [pLit ";", pStar isJsWS, pLit "estimated_printing_time(normal)",
    pStar isJsWS, pLit "=", pStar isJsWS]

/-- Regex `(?:maxz|max_z|height|object[_ ]?height)[:=\s]\s*`. -/
def patObjectHeightA : PatM :=
  pSeq [pAlt [pLit "maxz", pLit "max_z", pLit "height",
      pSeq [pLit "object", pOpt (pCls isUS), pLit "height"]],
    pCls isSep, pStar isJsWS]

/-- The empty metadata record. -/
def emptyMeta : Meta := {}

/-- One iteration of the `parseGcodeHeader` line loop: trim, require a leading
`;`, lowercase, then fill each still-absent field from its regex variants in
source order. -/
def scanLine (meta : Meta) (rawLine : List Char) : Meta :=
  let line := jsTrim rawLine
  match line with
  | ';' :: _ =>
    let lower := line.map Char.toLower
    let lh := jsCoalesce meta.layer_height
      (jsCoalesce (numberFromLine lower patLayerHeightA isDigDot)
        (numberFromLine lower patLayerHeightB isDigDot))
    let flh := jsCoalesce meta.first_layer_height
      (jsCoalesce (numberFromLine lower patFirstLayerHeightA isDigDot)
        (numberFromLine lower patFirstLayerHeightB isDigDot))
    let lc := jsCoalesce meta.layer_count
      (jsCoalesce (numberFromLine lower patLayerCountA isDig)
        (jsCoalesce (numberFromLine lower patLayerCountB isDig)
          (numberFromLine lower patLayerCountC isDig)))
    let et := jsCoalesce meta.estimated_time
      (jsCoalesce (numberFromLine lower patEstimatedTimeA isDigDot)
        (jsCoalesce (numberFromLine lower patEstimatedTimeB isDigDot)
          (numberFromLine lower patEstimatedTimeC isDigDot)))
    let oh :=
      match numberFromLine lower patObjectHeightA isDigDot with
      | none => meta.object_height
      | some heightVal => jsCoalesce meta.object_height (some heightVal)
    { meta with
      layer_height := lh
      first_layer_height := flh
      layer_count := lc
      estimated_time := et
      object_height := oh }
  | _ => meta

/-- `text.split(/\r?\n/)`. -/
def splitLinesAux : List Char → List (List Char)
  | [] => [[]]
  | '\r' :: '\n' :: rest => [] :: splitLinesAux rest
  | '\n' :: rest => [] :: splitLinesAux rest
  | c :: rest =>
    match splitLinesAux rest with
    | [] => [[c]]
    | l :: ls => (c :: l) :: ls

/-- The pure scan phase of `parseGcodeHeader`: fold `scanLine` over the first
500 lines. -/
def scanGcodeMeta (text : String) : Meta :=
  ((splitLinesAux text.toList).take 500).foldl scanLine emptyMeta

/-- The final non-null test of `parseGcodeHeader`: at least one of the four
layer/geometry fields is truthy (set and nonzero). -/
def metaHasLayerField (m : Meta) : Bool :=
  truthyQ m.layer_height || truthyQ m.first_layer_height ||
  truthyQ m.layer_count || truthyQ m.object_height

/-- The first post-scan derivation of `parseGcodeHeader`:
`object_height = layer_height × layer_count` when `object_height` is absent
and both inputs are truthy. -/
def deriveObjectHeight (m : Meta) : Meta :=
  if ¬ truthyQ m.object_height ∧ truthyQ m.layer_height ∧ truthyQ m.layer_count
  then
    let oh := some (m.layer_height.getD 0 * m.layer_count.getD 0)
    { m with object_height := oh }
  else m

/-- The second post-scan derivation of `parseGcodeHeader`:
`layer_count = round((object_height − first_layer)/layer_height + 1)`, floored
at 1, when `layer_count` is absent and the geometry is present. -/
def deriveLayerCount (m : Meta) : Meta :=
  if truthyQ m.object_height ∧ truthyQ m.layer_height ∧ ¬ truthyQ m.layer_count
  then
    let firstLayer := (jsOr m.first_layer_height m.layer_height).getD 0
    let lc := some (max 1 (jround ((m.object_height.getD 0 - firstLayer) /
      m.layer_height.getD 0 + 1)))
    { m with layer_count := lc }
  else m

/-- `parseGcodeHeader(text)` from the source: scan the first 500 lines, derive
`object_height` and `layer_count` from geometry when absent, and return the
record only if one of the four layer/geometry fields was populated. -/
def parseGcodeHeader (text : String) : Option Meta :=
  if text = "" then none
  else
    let m2 := deriveLayerCount (deriveObjectHeight (scanGcodeMeta text))
    if metaHasLayerField m2 then some m2 else none

/-! ### Filename heuristics and the metadata cache -/

/-- The `[_\s\.]` class of the filename layer-height regex. -/
def isUSDot (c : Char) : Bool := c == '_' || isJsWS c || c == '.'

/-- The `(?:[_\s\.]|mm|$)` terminator of the filename layer-height regex
(case-insensitive). -/
def fnameHeightTermOk (s : List Char) : Bool :=
  match s with
  | [] => true
  | c :: rest =>
    isUSDot c ||
    (c.toLower == 'm' && (match rest with
      | c2 :: _ => c2.toLower == 'm'
      | [] => false))

/-- Match `filename.match(/[_\s\.]0\.(\d+)(?:[_\s\.]|mm|$)/i)` at one start
position, returning the digit capture (greedy, longest first). -/
def fnameHeightAt (s : List Char) : Option (List Char) :=
  match s with
  | c0 :: '0' :: '.' :: rest =>
    if isUSDot c0 then
      let run := rest.takeWhile isDig
      if run.isEmpty then none
      else
        (List.range run.length).findSome? (fun i =>
          let k := run.length - i
          if fnameHeightTermOk (rest.drop k) then some (run.take k) else none)
    else none
  | _ => none

/-- Leftmost search of the filename layer-height regex. -/
def fnameLayerHeightDigits : List Char → Option (List Char)
  | [] => none
  | c :: rest =>
    (fnameHeightAt (c :: rest)).orElse (fun _ => fnameLayerHeightDigits rest)

/-- One `(?:(\d+)u)?` piece of the filename duration regex at the current
position: a maximal digit run must be directly followed by the (case-folded)
unit letter, otherwise the optional group matches empty. -/
def tryNumUnit (u : Char) (s : List Char) : Option ℕ × List Char :=
  let run := s.takeWhile isDig
  if run.isEmpty then (none, s)
  else
    match s.drop run.length with
    | c :: rest => if c.toLower == u then (some (digitsVal run), rest) else (none, s)
    | [] => (none, s)

/-- `filename.match(/(?:(\d+)d)?(?:(\d+)h)?(?:(\d+)m)?/i)`: since every piece
is optional and the regex is unanchored, the first match is always found at
position 0 (possibly empty), so only a duration token at the very start of the
filename can populate the groups. -/
def matchDurationAt0 (s : List Char) : Option ℕ × Option ℕ × Option ℕ :=
  let p1 := tryNumUnit 'd' s
  let p2 := tryNumUnit 'h' p1.2
  let p3 := tryNumUnit 'm' p2.2
  (p1.1, p2.1, p3.1)

/-- The layer-height patch block of `ensureMetadataLoaded` (runs only when the
cached record exists and `layer_height` is falsy). -/
def patchLayerHeightFromFilename (filename : String) (d : Meta) : Meta :=
  if truthyQ d.layer_height then d
  else
    match fnameLayerHeightDigits filename.toList with
    | none => d
    | some ds =>
      let inferredHeight : ℚ := (digitsVal ds : ℚ) / 10 ^ ds.length
      if 5/100 ≤ inferredHeight ∧ inferredHeight ≤ 5/10 then
        let d1 := { d with layer_height := some inferredHeight }
        if truthyQ d1.object_height ∧ ¬ truthyQ d1.layer_count then
          let firstLayer := (jsOr d1.first_layer_height (some inferredHeight)).getD 0
          let lc := some (max 1 (jround
            ((d1.object_height.getD 0 - firstLayer) / inferredHeight + 1)))
          { d1 with layer_count := lc }
        else d1
      else d

/-- The estimated-time patch block of `ensureMetadataLoaded` (runs only when
the cached record exists and `estimated_time` is falsy). -/
def patchEstimatedTimeFromFilename (filename : String) (d : Meta) : Meta :=
  if truthyQ d.estimated_time then d
  else
    let groups := matchDurationAt0 filename.toList
    if groups.1.isSome || groups.2.1.isSome || groups.2.2.isSome then
      let seconds :=
        groups.1.getD 0 * 86400 + groups.2.1.getD 0 * 3600 + groups.2.2.getD 0 * 60
      if 0 < seconds then { d with estimated_time := some (seconds : ℚ) } else d
    else d

/-- The module-level `metadataCache` record. -/
structure MetadataCache where
  filename : Option String := none
  data : Option Meta := none
  source : Option String := none
  deriving DecidableEq, Repr

/-- The startup metadata cache (`filename: null, data: null, source: null`). -/
def emptyCache : MetadataCache := {}

/-- JS truthiness of a string-or-null value (the empty string is falsy). -/
def strTruthy (s : Option String) : Bool :=
  match s with
  | none => false
  | some str => str != ""

/-- `ensureMetadataLoaded(filename, state)` from the source, as a state
transition on the metadata cache.  `fetched` stands for the awaited result of
`fetchMetadata(filename)` (`none` when both the API and the G-code header
yielded nothing); after storing it, the two filename-heuristic patch blocks
run on a non-null record. -/
def ensureMetadataLoaded (cache : MetadataCache) (filename : Option String)
    (state : String) (fetched : Option (Meta × String)) : MetadataCache :=
  if state ≠ "printing" ∨ ¬ strTruthy filename then cache
  else if cache.filename = filename ∧ cache.data.isSome then cache
  else
    let f := filename.getD ""
    let data0 : Option Meta := fetched.map Prod.fst
    let source0 : Option String := (fetched.map Prod.snd).bind
      (fun s => if s = "" then none else some s)
    let data1 := data0.map (patchLayerHeightFromFilename f)
    let data2 := data1.map (patchEstimatedTimeFromFilename f)
    ⟨filename, data2, source0⟩

/-! ### Thumbnail extraction

`extractThumbnailFromGcode` runs the global regex
`/; thumbnail begin \d+x\d+ \d+([\s\S]*?); thumbnail end/g` over the raw text
and keeps the cleaned payload of the last match. -/

/-- The literal head of a thumbnail block. -/
def thumbBeginLit : List Char := "; thumbnail begin ".toList

/-- The literal end marker of a thumbnail block. -/
def thumbEndLit : List Char := "; thumbnail end".toList

/-- Drop a literal, or fail. -/
def dropLit (w s : List Char) : Option (List Char) :=
  if w.isPrefixOf s then some (s.drop w.length) else none

/-- Drop a nonempty greedy digit run (`\d+`), or fail. -/
def dropDigits1 (s : List Char) : Option (List Char) :=
  if (s.takeWhile isDig).isEmpty then none
  else some (s.drop (s.takeWhile isDig).length)

/-- Drop one expected character, or fail. -/
def dropChar (c : Char) (s : List Char) : Option (List Char) :=
  match s with
  | [] => none
  | c' :: rest => if c' = c then some rest else none

/-- Match `; thumbnail begin \d+x\d+ \d+` at the current position; the
returned suffix is where the lazy capture group starts. -/
def matchThumbBegin (s : List Char) : Option (List Char) :=
  (dropLit thumbBeginLit s).bind (fun s1 =>
    (dropDigits1 s1).bind (fun s2 =>
      (dropChar 'x' s2).bind (fun s3 =>
        (dropDigits1 s3).bind (fun s4 =>
          (dropChar ' ' s4).bind dropDigits1))))

/-- Lazy `([\s\S]*?); thumbnail end`: split at the first occurrence of the end
marker, returning the capture and the suffix after the marker. -/
def findEndSplit : List Char → Option (List Char × List Char)
  | [] => none
  | c :: rest =>
    if thumbEndLit.isPrefixOf (c :: rest) then
      some ([], (c :: rest).drop thumbEndLit.length)
    else
      match findEndSplit rest with
      | none => none
      | some (cap, r) => some (c :: cap, r)

/-- One `blockRegex.exec` step: leftmost position where a whole thumbnail
block matches, returning the capture and the rest of the text after the
match (the new `lastIndex`). -/
def nextThumbMatch : List Char → Option (List Char × List Char)
  | [] => none
  | c :: rest =>
    match (matchThumbBegin (c :: rest)).bind findEndSplit with
    | some r => some r
    | none => nextThumbMatch rest

theorem dropLit_length_lt {w s r : List Char} (hw : w ≠ [])
    (h : dropLit w s = some r) : r.length < s.length := by
  unfold dropLit at h
  split at h
  · rename_i hpre
    cases h
    have hle : w.length ≤ s.length := (List.isPrefixOf_iff_prefix.mp hpre).length_le
    have hwpos : 0 < w.length := List.length_pos.mpr hw
    simp [List.length_drop]
    omega
  · exact absurd h (by simp)

theorem dropDigits1_length_le {s r : List Char} (h : dropDigits1 s = some r) :
    r.length ≤ s.length := by
  unfold dropDigits1 at h
  split at h
  · exact absurd h (by simp)
  · cases h
    simp [List.length_drop]

theorem dropChar_length_le {c : Char} {s r : List Char} (h : dropChar c s = some r) :
    r.length ≤ s.length := by
  unfold dropChar at h
  cases s with
  | nil => exact absurd h (by simp)
  | cons c' rest =>
    simp only at h
    split at h
    · cases h; simp
    · exact absurd h (by simp)

theorem matchThumbBegin_length_lt {s r : List Char}
    (h : matchThumbBegin s = some r) : r.length < s.length := by
  unfold matchThumbBegin at h
  obtain ⟨s1, h1, h⟩ := Option.bind_eq_some.mp h
  obtain ⟨s2, h2, h⟩ := Option.bind_eq_some.mp h
  obtain ⟨s3, h3, h⟩ := Option.bind_eq_some.mp h
  obtain ⟨s4, h4, h⟩ := Option.bind_eq_some.mp h
  obtain ⟨s5, h5, h6⟩ := Option.bind_eq_some.mp h
  have l1 := dropLit_length_lt (by decide) h1
  have l2 := dropDigits1_length_le h2
  have l3 := dropChar_length_le h3
  have l4 := dropDigits1_length_le h4
  have l5 := dropChar_length_le h5
  have l6 := dropDigits1_length_le h6
  omega

theorem findEndSplit_length_lt {s cap r : List Char}
    (h : findEndSplit s = some (cap, r)) : r.length < s.length := by
  induction s generalizing cap with
  | nil => exact absurd h (by simp [findEndSplit])
  | cons c rest ih =>
    unfold findEndSplit at h
    split at h
    · cases h
      have hpos : 0 < thumbEndLit.length := by decide
      simp only [List.length_drop, List.length_cons]
      omega
    · cases h2 : findEndSplit rest with
      | none => rw [h2] at h; exact absurd h (by simp)
      | some p =>
        obtain ⟨cap', r'⟩ := p
        rw [h2] at h
        simp only at h
        cases h
        have := ih h2
        simp only [List.length_cons]
        omega

theorem nextThumbMatch_length_lt {s cap r : List Char}
    (h : nextThumbMatch s = some (cap, r)) : r.length < s.length := by
  induction s generalizing cap with
  | nil => exact absurd h (by simp [nextThumbMatch])
  | cons c rest ih =>
    unfold nextThumbMatch at h
    cases hb : (matchThumbBegin (c :: rest)).bind findEndSplit with
    | some p =>
      rw [hb] at h
      cases h
      obtain ⟨t, hm, he⟩ := Option.bind_eq_some.mp hb
      have h1 := matchThumbBegin_length_lt hm
      have h2 := findEndSplit_length_lt he
      omega
    | none =>
      rw [hb] at h
      have := ih h
      simp only [List.length_cons]
      omega

/-- All thumbnail-block captures found by the `exec` loop, in order.  The
fuel argument only bounds the number of loop iterations; since every match
consumes at least one character (`nextThumbMatch_length_lt`), a fuel of
`s.length` never runs out. -/
def thumbnailMatchesFuel : ℕ → List Char → List (List Char)
  | 0, _ => []
  | fuel + 1, s =>
    match nextThumbMatch s with
    | none => []
    | some (cap, rest) => cap :: thumbnailMatchesFuel fuel rest

/-- All thumbnail-block captures of the text, in order. -/
def thumbnailMatches (s : List Char) : List (List Char) :=
  thumbnailMatchesFuel s.length s

/-- Strip one leading `;` (the `replace(/^;/, "")` of the source). -/
def stripSemicolon (s : List Char) : List Char :=
  match s with
  | ';' :: rest => rest
  | _ => s

/-- Per-line cleanup of a payload line: `line.trim().replace(/^;/, "").trim()`. -/
def cleanLine (s : List Char) : List Char :=
  jsTrim (stripSemicolon (jsTrim s))

/-- Reassemble the base64 payload of one captured block: split on newlines,
clean each line, drop empties, join. -/
def cleanPayload (cap : List Char) : String :=
  String.mk (((cap.splitOn '\n').map cleanLine).filter (fun l => ¬ l.isEmpty)).flatten

/-- The `while ((match = blockRegex.exec(text)) !== null)` loop of
`extractThumbnailFromGcode`: `acc` is the `lastBlock` variable.  As above, the
fuel only bounds the iteration count and `s.length` is always enough. -/
def extractLoopFuel : ℕ → Option String → List Char → Option String
  | 0, acc, _ => acc
  | fuel + 1, acc, s =>
    match nextThumbMatch s with
    | none => acc
    | some (cap, rest) => extractLoopFuel fuel (some (cleanPayload cap)) rest

/-- `extractThumbnailFromGcode` from the source, restricted to its pure core
(the fetched text is the input; `lastBlock` starts as `null`). -/
def extractThumbnailFromGcode (text : String) : Option String :=
  extractLoopFuel text.toList.length none text.toList

/-! ## Claims -/

/-- Example status with a slicer-reported current layer of 5 (for C1). -/
def c1psSlicer : PrintStats := { state := "printing", info := some { current_layer := some 5 } }

/-- Example status with an empty slicer info object (for C1). -/
def c1psNoSlicer : PrintStats := { state := "printing", info := some {} }

/-- Example metadata: 0.2mm layers, first layer 0.2mm, 40 layers (for C1). -/
def c1meta : Meta :=
  { layer_height := some (1/5), first_layer_height := some (1/5), layer_count := some 40 }

/-- Example toolhead at Z = 1.8mm, i.e. metadata-derived layer 9 (for C1). -/
def c1toolhead : Toolhead := { position := [0, 0, 9/5] }

/-- Example display status at progress 0.3, i.e. progress-derived layer 12 of
40 (for C1). -/
def c1display : DisplayStatus := { progress := some (3/10) }

/-- C1: Layer reconciliation follows the fixed precedence: for every status
and metadata, the current-layer result is the first non-null among the
slicer-reported current layer, the metadata-geometry-derived current layer,
the progress-ratio-derived current layer, and the Z/0.2mm fallback (and the
total-layer result the first non-null among its three sources); in
particular, with slicer current=5 and metadata-derived current=9 the result
is 5, and with no slicer value, metadata-derived=9 and progress-derived=12
the result is 9. -/
theorem claim1_layer_precedence :
    (∀ (ps : PrintStats) (ds : Option DisplayStatus) (th : Option Toolhead)
        (md : Option Meta),
      getLayerInfo ps ds th md =
        ⟨firstNonNull [slicerCurrentOf ps, (computeLayerFromMetadata th md).current,
            (computeLayerFromProgress ds md).current, fallbackCurrentOf th md],
          firstNonNull [slicerTotalOf ps, (computeLayerFromMetadata th md).total,
            (computeLayerFromProgress ds md).total]⟩) ∧
    (slicerCurrentOf c1psSlicer = some 5 ∧
      (computeLayerFromMetadata (some c1toolhead) (some c1meta)).current = some 9 ∧
      (getLayerInfo c1psSlicer none (some c1toolhead) (some c1meta)).currentLayer =
        some 5) ∧
    (slicerCurrentOf c1psNoSlicer = none ∧
      (computeLayerFromMetadata (some c1toolhead) (some c1meta)).current = some 9 ∧
      (computeLayerFromProgress (some c1display) (some c1meta)).current = some 12 ∧
      (getLayerInfo c1psNoSlicer (some c1display) (some c1toolhead)
        (some c1meta)).currentLayer = some 9) := by
  refine ⟨fun ps ds th md => rfl,
    ⟨by with_unfolding_all rfl, by with_unfolding_all rfl, by with_unfolding_all rfl⟩,
    by with_unfolding_all rfl, by with_unfolding_all rfl,
    by with_unfolding_all rfl, by with_unfolding_all rfl⟩

/-- C2 counterexample: a slicer-reported `current_layer` of `0` is NOT treated
as absent — `getLayerInfo` returns it unchanged, so the reconciler can emit a
current layer of 0, contradicting the claim. -/
theorem claim2_counterexample :
    (getLayerInfo { state := "printing", info := some { current_layer := some 0 } }
      none none none).currentLayer = some 0 := by with_unfolding_all rfl

theorem one_le_max_one (r : ℚ) : (1 : ℚ) ≤ max 1 r := le_max_left 1 r

theorem jsOr_none_none : jsOr none none = (none : Option ℚ) := rfl

theorem computeLayerFromProgress_current_ge_one (ds : Option DisplayStatus)
    (md : Option Meta) (q : ℚ)
    (h : (computeLayerFromProgress ds md).current = some q) : 1 ≤ q := by
  cases md with
  | none => exact absurd h (by simp [computeLayerFromProgress])
  | some m =>
    simp only [computeLayerFromProgress] at h
    split at h
    · exact absurd h (by simp)
    · dsimp only at h
      simp only [Option.some_inj] at h
      subst h
      exact one_le_max_one _

theorem fallbackCurrentOf_ge_one (th : Option Toolhead) (md : Option Meta) (q : ℚ)
    (h : fallbackCurrentOf th md = some q) : 1 ≤ q := by
  unfold fallbackCurrentOf at h
  split at h
  · exact absurd h (by simp)
  · split at h
    · simp only [Option.some_inj] at h
      subst h
      exact one_le_max_one _
    · exact absurd h (by simp)

theorem computeLayerFromMetadata_nocount (th : Option Toolhead) (m : Meta)
    (hm : jsCoalesce m.layer_count (jsCoalesce m.total_layer m.total_layers) = none) :
    (∀ q : ℚ, (computeLayerFromMetadata th (some m)).current = some q → 1 ≤ q) ∧
    (∀ q : ℚ, (computeLayerFromMetadata th (some m)).total = some q → 1 ≤ q) := by
  constructor
  · intro q h
    simp only [computeLayerFromMetadata, asNumber, hm, jsOr_none_none] at h
    split at h
    · split at h
      · split at h
        · simp only [Option.getD_some, Option.some_inj] at h
          subst h
          exact le_min (one_le_max_one _) (one_le_max_one _)
        · simp only [Option.some_inj] at h
          subst h
          exact one_le_max_one _
      · split at h
        · rename_i htr
          simp [truthyQ] at htr
        · simp only [Option.some_inj] at h
          subst h
          exact one_le_max_one _
    · exact absurd h (by simp)
  · intro q h
    simp only [computeLayerFromMetadata, asNumber, hm, jsOr_none_none] at h
    split at h
    · simp only [Option.some_inj] at h
      subst h
      exact one_le_max_one _
    · exact absurd h (by simp)

theorem computeLayerFromProgress_nocount (ds : Option DisplayStatus) (m : Meta)
    (hm : jsCoalesce m.layer_count (jsCoalesce m.total_layer m.total_layers) = none) :
    computeLayerFromProgress ds (some m) = ⟨none, none⟩ := by
  simp [computeLayerFromProgress, asNumber, hm, truthyQ, jsOr]

/-- C2 amended: the slicer-reported current/total layer values pass through
`getLayerInfo` unfiltered (a slicer value of 0 or negative is returned
as-is, as the counterexample shows), and likewise a metadata layer-count
alias is used as the total without a positivity check; but whenever no
slicer layer field and no metadata layer-count alias is present, every
candidate is clamped, so the returned current and total layers are each
either null or at least 1. -/
theorem claim2_amended (ps : PrintStats) (ds : Option DisplayStatus)
    (th : Option Toolhead) (md : Option Meta)
    (h1 : slicerCurrentOf ps = none) (h2 : slicerTotalOf ps = none)
    (h3 : ∀ m : Meta, md = some m →
      jsCoalesce m.layer_count (jsCoalesce m.total_layer m.total_layers) = none) :
    (∀ q : ℚ, (getLayerInfo ps ds th md).currentLayer = some q → 1 ≤ q) ∧
    (∀ q : ℚ, (getLayerInfo ps ds th md).totalLayer = some q → 1 ≤ q) := by
  have hmc : ∀ q : ℚ, (computeLayerFromMetadata th md).current = some q → 1 ≤ q := by
    cases md with
    | none => intro q h; exact absurd h (by simp [computeLayerFromMetadata])
    | some m => exact (computeLayerFromMetadata_nocount th m (h3 m rfl)).1
  have hmt : ∀ q : ℚ, (computeLayerFromMetadata th md).total = some q → 1 ≤ q := by
    cases md with
    | none => intro q h; exact absurd h (by simp [computeLayerFromMetadata])
    | some m => exact (computeLayerFromMetadata_nocount th m (h3 m rfl)).2
  have hpc : ∀ q : ℚ, (computeLayerFromProgress ds md).current = some q → 1 ≤ q :=
    fun q h => computeLayerFromProgress_current_ge_one ds md q h
  have hpt : ∀ q : ℚ, (computeLayerFromProgress ds md).total = some q → 1 ≤ q := by
    cases md with
    | none => intro q h; exact absurd h (by simp [computeLayerFromProgress])
    | some m =>
      intro q h
      rw [computeLayerFromProgress_nocount ds m (h3 m rfl)] at h
      exact absurd h (by simp)
  constructor
  · intro q h
    unfold getLayerInfo at h
    simp only [firstNonNull, h1, List.findSome?, id] at h
    cases hc1 : (computeLayerFromMetadata th md).current with
    | some a => rw [hc1] at h; simp only [Option.some_inj] at h; subst h; exact hmc a hc1
    | none =>
      rw [hc1] at h
      cases hc2 : (computeLayerFromProgress ds md).current with
      | some a => rw [hc2] at h; simp only [Option.some_inj] at h; subst h; exact hpc a hc2
      | none =>
        rw [hc2] at h
        cases hc3 : fallbackCurrentOf th md with
        | some a =>
          rw [hc3] at h; simp only [Option.some_inj] at h; subst h
          exact fallbackCurrentOf_ge_one th md a hc3
        | none => rw [hc3] at h; exact absurd h (by simp)
  · intro q h
    unfold getLayerInfo at h
    simp only [firstNonNull, h2, List.findSome?, id] at h
    cases hc1 : (computeLayerFromMetadata th md).total with
    | some a => rw [hc1] at h; simp only [Option.some_inj] at h; subst h; exact hmt a hc1
    | none =>
      rw [hc1] at h
      cases hc2 : (computeLayerFromProgress ds md).total with
      | some a => rw [hc2] at h; simp only [Option.some_inj] at h; subst h; exact hpt a hc2
      | none => rw [hc2] at h; exact absurd h (by simp)

/-- Witness for the C2 amended theorem at a concrete input. -/
theorem claim2_amended_witness :
    (∀ q : ℚ, (getLayerInfo { state := "printing" } (some { progress := some (1/2) })
      (some { position := [0, 0, 1] })
      (some { layer_height := some (1/5), object_height := some 4 })).currentLayer =
        some q → 1 ≤ q) ∧
    (∀ q : ℚ, (getLayerInfo { state := "printing" } (some { progress := some (1/2) })
      (some { position := [0, 0, 1] })
      (some { layer_height := some (1/5), object_height := some 4 })).totalLayer =
        some q → 1 ≤ q) :=
  claim2_amended { state := "printing" } (some { progress := some (1/2) })
    (some { position := [0, 0, 1] })
    (some { layer_height := some (1/5), object_height := some 4 })
    (by decide) (by decide) (fun m hm => by cases hm; decide)

/-- C3: for every progress `p` and print duration `d ≥ 0`,
`computeRemainingFromProgress` returns `d/p − d` when `0 < p < 1` and `null`
when `p ≤ 0` or `p ≥ 1`. -/
theorem claim3_remaining_by_progress (p d : ℚ) (hd : 0 ≤ d) :
    (0 < p → p < 1 → computeRemainingFromProgress p d = some (d / p - d)) ∧
    ((p ≤ 0 ∨ 1 ≤ p) → computeRemainingFromProgress p d = none) := by
  constructor
  · intro h1 h2
    unfold computeRemainingFromProgress
    rw [if_pos ⟨h1, h2⟩]
  · intro h
    unfold computeRemainingFromProgress
    rw [if_neg]
    rintro ⟨hp1, hp2⟩
    rcases h with h | h
    · exact absurd hp1 (not_lt.mpr h)
    · exact absurd hp2 (not_lt.mpr h)

theorem metaHasLayerField_deriveObjectHeight (m : Meta) :
    metaHasLayerField (deriveObjectHeight m) = metaHasLayerField m := by
  unfold deriveObjectHeight
  split
  · rename_i hc
    simp [metaHasLayerField, hc.2.1]
  · rfl

theorem metaHasLayerField_deriveLayerCount (m : Meta) :
    metaHasLayerField (deriveLayerCount m) = metaHasLayerField m := by
  unfold deriveLayerCount
  split
  · rename_i hc
    simp [metaHasLayerField, hc.1]
  · rfl

/-- C4 counterexample: an input whose only metadata comment is an
estimated-time line is parsed (the scan records `estimated_time = 3600`) but
`parseGcodeHeader` still returns null, because its final non-null test checks
only the four layer/geometry fields — contradicting the claimed
"non-null iff at least one recognized field matched". -/
theorem claim4_counterexample :
    parseGcodeHeader ";TIME:3600" = none ∧
    (scanGcodeMeta ";TIME:3600").estimated_time = some 3600 := by
  constructor <;> with_unfolding_all rfl

/-- C4 amended: `parseGcodeHeader` returns a non-null record iff the line scan
populated at least one of the four layer/geometry fields (`layer_height`,
`first_layer_height`, `layer_count`, `object_height`) with a nonzero value;
a matched `estimated_time` alone (or a field matched with value 0) still
yields null. -/
theorem claim4_amended (text : String) :
    (parseGcodeHeader text).isSome = metaHasLayerField (scanGcodeMeta text) := by
  unfold parseGcodeHeader
  split
  · rename_i htext
    subst htext
    rfl
  · simp only [metaHasLayerField_deriveLayerCount, metaHasLayerField_deriveObjectHeight]
    split
    · rename_i hcond
      simp [hcond]
    · rename_i hcond
      cases hmb : metaHasLayerField (scanGcodeMeta text) with
      | false => rfl
      | true => exact absurd hmb hcond

/-- Witness for C3 at `p = 1/2, d = 10` and `p = 3/2, d = 10`. -/
theorem claim3_witness :
    computeRemainingFromProgress (1/2) 10 = some 10 ∧
    computeRemainingFromProgress (3/2) 10 = none := by
  constructor
  · have h := (claim3_remaining_by_progress (1/2) 10 (by norm_num)).1
      (by norm_num) (by norm_num)
    rw [h]
    with_unfolding_all rfl
  · exact (claim3_remaining_by_progress (3/2) 10 (by norm_num)).2 (Or.inr (by norm_num))

/-- C5 evaluation at the claimed input: on `model_0.28mm_2h15m.gcode` with an
empty prior metadata record, the heuristics infer `layer_height = 0.28`
(as claimed) but leave `estimated_time` unset — the duration regex
`(?:(\d+)d)?(?:(\d+)h)?(?:(\d+)m)?` is fully optional and unanchored, so it
matches the empty string at position 0 and never reaches the `2h15m` token.
The claimed `estimated_time = 8100` is only produced when the token starts
the filename. -/
theorem claim5_failing_eval :
    (ensureMetadataLoaded emptyCache (some "model_0.28mm_2h15m.gcode") "printing"
      (some ({}, "api"))).data = some { layer_height := some (7/25) } ∧
    ((ensureMetadataLoaded emptyCache (some "model_0.28mm_2h15m.gcode") "printing"
      (some ({}, "api"))).data.bind Meta.estimated_time) = none ∧
    (ensureMetadataLoaded emptyCache (some "2h15m_model_0.28mm.gcode") "printing"
      (some ({}, "api"))).data =
      some { layer_height := some (7/25), estimated_time := some 8100 } := by
  refine ⟨?_, ?_, ?_⟩ <;> with_unfolding_all rfl

/-- C6: for consecutive transient network failures of the status poll, the
retry delays for retries 1–5 are 2000, 4000, 8000, 16000, 30000 ms
(`min(2000·2^(count−1), 30000)`), and the 6th consecutive failure schedules
no retry and reports the terminal unreachable state. -/
theorem claim6_backoff_sequence :
    fetchErrorTrace 0 "Failed to fetch" "192.168.1.10" 6 =
      [.retry 1 2000, .retry 2 4000, .retry 3 8000, .retry 4 16000,
        .retry 5 30000, .terminal "Unreachable: 192.168.1.10"] ∧
    (∀ count : ℕ, fetchErrorAction count "Failed to fetch" "192.168.1.10" =
      if count < maxApiRetries then
        .retry (count + 1) (min (2000 * 2 ^ count) 30000)
      else .terminal "Unreachable: 192.168.1.10") := by
  constructor
  · decide
  · intro count
    unfold fetchErrorAction
    have hnet : isNetworkErrorMsg "Failed to fetch" = true := by decide
    have h401 : strIncludes "Failed to fetch" "HTTP 401" = false := by decide
    have h403 : strIncludes "Failed to fetch" "HTTP 403" = false := by decide
    have h404 : strIncludes "Failed to fetch" "HTTP 404" = false := by decide
    simp [hnet, h401, h403, h404]

/-- C7 counterexample: in the idle branch the slicer time slot is set to
`getSlicerTotalSeconds(metadata, info)`, not to null — with cached metadata
carrying `estimated_time = 3600` the poll shows 3600 while idle, contradicting
"all three time outputs are null". -/
theorem claim7_counterexample :
    statusTimeValues { state := "standby" } none none
        (some { estimated_time := some 3600 }) =
      ⟨none, some 3600, none⟩ ∧
    (statusTimeValues { state := "standby" } none none
        (some { estimated_time := some 3600 })).timeSlicer ≠ none := by
  constructor
  · with_unfolding_all rfl
  · intro h
    have h2 : (some (3600 : ℚ)) = (none : Option ℚ) := by
      rw [← h]
      with_unfolding_all rfl
    exact Option.noConfusion h2

/-- C7 amended: while idle (state neither `printing` nor `paused`), the
progress-based remaining and elapsed slots are null, but the slicer slot is
set to `getSlicerTotalSeconds` of the cached metadata and slicer info, which
is non-null whenever a positive time estimate exists. -/
theorem claim7_amended (ps : PrintStats) (ds : Option DisplayStatus)
    (vs : Option ℚ) (md : Option Meta)
    (h1 : ps.state ≠ "printing") (h2 : ps.state ≠ "paused") :
    statusTimeValues ps ds vs md =
      ⟨none, getSlicerTotalSeconds md ps.info, none⟩ := by
  unfold statusTimeValues
  rw [if_neg h1, if_neg h2]

/-- Witness for the C7 amended theorem at a concrete idle input. -/
theorem claim7_amended_witness :
    statusTimeValues { state := "standby" } none none none = ⟨none, none, none⟩ := by
  rw [claim7_amended { state := "standby" } none none none (by decide) (by decide)]
  rfl

/-- C8 counterexample: an entry whose only temperature-like alias is
`current` parses successfully, but the returned target is 0, not the current
temperature — the target fallback reads only `temperature ?? temp ?? 0`. -/
theorem claim8_counterexample :
    parseTempEntry (some { current := some 25 }) = some (25, 0) ∧
    ((25 : ℚ), (0 : ℚ)).2 ≠ ((25 : ℚ), (0 : ℚ)).1 := by
  constructor
  · with_unfolding_all rfl
  · decide

/-- C8 amended: when no target alias is present, the returned target is
`round(temperature ?? temp ?? 0)`; it equals the returned current temperature
exactly when the reading was sourced from the `temperature` or `temp` alias
(as here), and is 0 when only `current`/`temper` provided it. -/
theorem claim8_amended (e : TempEntry) (t : ℚ)
    (h1 : e.target = none) (h2 : e.target_temp = none)
    (h3 : e.target_temperature = none)
    (h4 : jsCoalesce e.temperature e.temp = some t) :
    parseTempEntry (some e) = some (jround t, jround t) := by
  unfold parseTempEntry
  cases he : e.temperature with
  | some a =>
    rw [he] at h4
    simp only [jsCoalesce] at h4 ⊢
    cases h4
    simp [h1, h2, h3, jsCoalesce, he]
  | none =>
    rw [he] at h4
    simp only [jsCoalesce] at h4
    cases he2 : e.temp with
    | none => rw [he2] at h4; exact absurd h4 (by simp)
    | some b =>
      rw [he2] at h4
      cases h4
      simp [h1, h2, h3, jsCoalesce, he, he2]

/-- Witness for the C8 amended theorem at a concrete entry. -/
theorem claim8_amended_witness :
    parseTempEntry (some { temperature := some 25 }) = some (25, 25) := by
  rw [claim8_amended { temperature := some 25 } 25 rfl rfl rfl rfl]
  with_unfolding_all rfl

theorem thumbnailMatchesFuel_nil (f : ℕ) : thumbnailMatchesFuel f [] = [] := by
  cases f <;> rfl

theorem thumbnailMatchesFuel_congr :
    ∀ (f1 f2 : ℕ) (s : List Char), s.length ≤ f1 → s.length ≤ f2 →
      thumbnailMatchesFuel f1 s = thumbnailMatchesFuel f2 s := by
  intro f1
  induction f1 with
  | zero =>
    intro f2 s hs1 hs2
    have hnil : s = [] := List.eq_nil_of_length_eq_zero (Nat.le_zero.mp hs1)
    subst hnil
    rw [thumbnailMatchesFuel_nil, thumbnailMatchesFuel_nil]
  | succ f1 ih =>
    intro f2 s hs1 hs2
    cases f2 with
    | zero =>
      have hnil : s = [] := List.eq_nil_of_length_eq_zero (Nat.le_zero.mp hs2)
      subst hnil
      rw [thumbnailMatchesFuel_nil, thumbnailMatchesFuel_nil]
    | succ f2 =>
      cases hm : nextThumbMatch s with
      | none => simp [thumbnailMatchesFuel, hm]
      | some pr =>
        obtain ⟨cap, rest⟩ := pr
        have hlt := nextThumbMatch_length_lt hm
        simp only [thumbnailMatchesFuel, hm]
        rw [ih f2 rest (by omega) (by omega)]

theorem thumbnailMatches_step_none {s : List Char} (hm : nextThumbMatch s = none) :
    thumbnailMatches s = [] := by
  unfold thumbnailMatches
  cases s with
  | nil => rfl
  | cons c rest => simp [thumbnailMatchesFuel, hm]

theorem thumbnailMatches_step_some {s cap : List Char} {rest : List Char}
    (hm : nextThumbMatch s = some (cap, rest)) :
    thumbnailMatches s = cap :: thumbnailMatches rest := by
  unfold thumbnailMatches
  cases s with
  | nil => exact absurd hm (by simp [nextThumbMatch])
  | cons c rest' =>
    have hlt := nextThumbMatch_length_lt hm
    simp only [List.length_cons, thumbnailMatchesFuel, hm]
    rw [thumbnailMatchesFuel_congr rest'.length rest.length rest
      (by simp at hlt; omega) le_rfl]

theorem extractLoopFuel_last :
    ∀ (fuel : ℕ) (s : List Char), s.length ≤ fuel → ∀ acc : Option String,
      extractLoopFuel fuel acc s =
        (match (thumbnailMatches s).getLast? with
          | none => acc
          | some cap => some (cleanPayload cap)) := by
  intro fuel
  induction fuel with
  | zero =>
    intro s hs acc
    have hnil : s = [] := List.eq_nil_of_length_eq_zero (Nat.le_zero.mp hs)
    subst hnil
    rfl
  | succ fuel ih =>
    intro s hs acc
    cases hm : nextThumbMatch s with
    | none =>
      rw [thumbnailMatches_step_none hm]
      simp [extractLoopFuel, hm]
    | some pr =>
      obtain ⟨cap, rest⟩ := pr
      have hlt := nextThumbMatch_length_lt hm
      rw [thumbnailMatches_step_some hm]
      simp only [extractLoopFuel, hm]
      rw [ih rest (by omega) (some (cleanPayload cap))]
      cases hl : thumbnailMatches rest with
      | nil => rfl
      | cons c' l' =>
        rw [List.getLast?_cons_cons]
        cases hgl : (c' :: l').getLast? with
        | none => exact absurd hgl (by simp)
        | some x => rfl

/-- C9: when the raw file text contains multiple embedded thumbnail blocks,
`extractThumbnailFromGcode` returns the cleaned base64 payload of the LAST
block found by the scan (per-line comment markers and whitespace stripped):
in general the `while` loop's result is the last element of the match list,
and on a concrete two-block text the second block's payload wins. -/
theorem claim9_thumbnail_last_block :
    (∀ text : String, extractThumbnailFromGcode text =
      (thumbnailMatches text.toList).getLast?.map cleanPayload) ∧
    extractThumbnailFromGcode
      "G1 X0\n; thumbnail begin 16x16 20\n; QUFB\n; QUJB\n; thumbnail end\nG1 Y0\n; thumbnail begin 8x8 10\n; Wlpa\n; thumbnail end\nM2\n" =
      some "Wlpa" ∧
    thumbnailMatches
      ("G1 X0\n; thumbnail begin 16x16 20\n; QUFB\n; QUJB\n; thumbnail end\nG1 Y0\n; thumbnail begin 8x8 10\n; Wlpa\n; thumbnail end\nM2\n".toList) =
      ["\n; QUFB\n; QUJB\n".toList, "\n; Wlpa\n".toList] := by
  refine ⟨?_, ?_, ?_⟩
  · intro text
    unfold extractThumbnailFromGcode
    rw [extractLoopFuel_last text.toList.length text.toList le_rfl none]
    cases (thumbnailMatches text.toList).getLast? <;> rfl
  · decide
  · decide

/-- C10: a failed metadata resolution is not negatively cached: when the
cache holds the active filename with null data, `ensureMetadataLoaded` in
state `printing` behaves exactly as it would from an empty cache — the early
return requires `metadataCache.data` to be non-null in addition to the
filename matching, so the full resolution runs again. -/
theorem claim10_no_negative_cache (cache : MetadataCache) (f : String)
    (fetched : Option (Meta × String))
    (hf : f ≠ "") (hfile : cache.filename = some f) (hdata : cache.data = none) :
    ensureMetadataLoaded cache (some f) "printing" fetched =
      ensureMetadataLoaded emptyCache (some f) "printing" fetched := by
  have hst : strTruthy (some f) = true := by
    simp [strTruthy, hf]
  unfold ensureMetadataLoaded
  rw [if_neg (by simp [hst]), if_neg (by simp [hdata]),
    if_neg (by simp [hst]), if_neg (by simp [emptyCache])]

/-- Witness for C10 at a concrete negatively-cached state. -/
theorem claim10_witness :
    ensureMetadataLoaded ⟨some "a.gcode", none, none⟩ (some "a.gcode") "printing"
        none =
      ensureMetadataLoaded emptyCache (some "a.gcode") "printing" none :=
  claim10_no_negative_cache ⟨some "a.gcode", none, none⟩ "a.gcode" none
    (by decide) rfl rfl

end PrintProgress
